import Mathlib

/-!
Verification of the FKZ plugin registry / dispatch engine and its process
supervisor, shallowly embedded from the TypeScript sources
`src/lib/PluginLoader.ts` and `src/monitor.ts`.

Modelling conventions:
* File-system paths are lists of path segments (`List String`); `path.join`
  is list append, `path.dirname` is `List.dropLast`.  `path.normalize` is
  the identity on this representation (segment lists are already in normal
  form), so path comparisons are plain equality of segment lists.
* A `CommandHandler` object's identity is modelled by a numeric id `hid`;
  the registry `Map<string, CommandHandler>` becomes an insertion-ordered
  association list from normalized token to handler id.
* Handler functions are effectful; their behaviour is supplied to dispatch
  as environments `Nat → CmdOutcome` (command handlers, which resolve or
  reject) and `Nat → GenOutcome` (generic `handleMessage` hooks, which
  return true, return false, or reject).  Dispatch returns a trace of which
  handlers ran, how many failure notices were sent and errors logged.
* A plugin module file is a `PluginModule` value: flags say whether the
  import, the factory, or the `init` hook fails, and which command handlers
  the factory registers imperatively through the plugin context versus
  declares in `plugin.commands`.  Thrown JS errors that the code catches
  are modelled by the catching branch; an uncaught throw surfaces as
  `Except.error`.
-/

namespace FKZ

/-- Kernel-computable embedding of `String.prototype.toLowerCase()`
(adequate for the ASCII command tokens the code deals in): lower-case
every character of the string. -/
def toLowerCase (s : String) : String :=
  String.mk (s.data.map Char.toLower)

/-- Kernel-computable embedding of a `.endsWith(suffix)` test on
strings. -/
def strEndsWith (s suf : String) : Bool :=
  decide (suf.data <:+ s.data)

/-- A command-handler object: its declared command tokens, optional
description/category, and an id standing for the handler function's
identity. -/
structure CommandHandler where
  hid : Nat
  commands : List String
  description : Option String := none
  category : Option String := none
  deriving DecidableEq, Repr

/-- The command registry: insertion-ordered association list from
normalized (lower-cased) token to handler id, embedding the
`Map<string, CommandHandler>` in `PluginLoader.commands`. -/
abbrev Registry := List (String × Nat)

/-- Case-insensitive lookup as performed by `this.commands.get(...)`:
tokens are stored lower-cased, callers lower-case before lookup. -/
def regLookup (reg : Registry) (k : String) : Option Nat :=
  reg.lookup k

/-- One iteration of the inner loop of `PluginLoader.registerCommands`:
normalize the token to lower case; if already present, warn and skip
(registry unchanged); otherwise insert the binding. -/
def registerToken (reg : Registry) (h : CommandHandler) (tok : String) : Registry :=
  let normalizedCmd := toLowerCase tok
  if (regLookup reg normalizedCmd).isSome then reg
  else reg ++ [(normalizedCmd, h.hid)]

/-- Registering a single handler: fold `registerToken` over its declared
tokens, in order. -/
def registerHandler (reg : Registry) (h : CommandHandler) : Registry :=
  h.commands.foldl (fun r t => registerToken r h t) reg

/-- `PluginLoader.registerCommands(handlers)`: register each handler in
order.  The function is total: no error is raised to the caller. -/
def registerCommands (reg : Registry) (hs : List CommandHandler) : Registry :=
  hs.foldl registerHandler reg

/-- Spec-side description of the registry contents ("maps each normalized
token to the handler of its first registrant"): the first handler in
registration order that declares a token lower-casing to `k`. -/
def firstRegistrant : List CommandHandler → String → Option Nat
  | [], _ => none
  | h :: rest, k =>
    if h.commands.any (fun t => toLowerCase t == k) then some h.hid
    else firstRegistrant rest k

/-- A plugin module file's content and behaviour.  `pid` stands for the
identity of the plugin instance the module produces; the `…Fails` flags
model the module failing to import, its factory throwing, or its `init`
hook rejecting; `factoryRegisters` are the handlers the factory registers
imperatively through `context.registerCommand` while it runs; `commands`
is the declarative `plugin.commands` list; `hasHandleMessage` records
whether the instance declares a generic `handleMessage` hook. -/
structure PluginModule where
  pid : Nat
  importFails : Bool := false
  factoryRegisters : List CommandHandler := []
  factoryFails : Bool := false
  initFails : Bool := false
  commands : List CommandHandler := []
  hasHandleMessage : Bool := false
  category : Option String := none
  deriving DecidableEq, Repr

/-- Plugin metadata for lazy loading (`PluginMetadata` in the source). -/
structure PluginMetadata where
  filePath : List String
  category : Option String := none
  loaded : Bool := false
  plugin : Option PluginModule := none
  deriving DecidableEq, Repr

/-- The `PluginLoader` instance state: the command registry, the metadata
store, and the loaded-plugin list in load order. -/
structure PluginLoader where
  pluginsDir : List String
  commands : Registry := []
  pluginMetadata : List PluginMetadata := []
  loadedPlugins : List PluginModule := []
  deriving DecidableEq, Repr

/-- The file system visible to the loader: which module files exist and
what module each contains. -/
structure Fs where
  files : List (List String × PluginModule)
  deriving DecidableEq, Repr

/-- Embeds `fs.existsSync` on a module file path. -/
def Fs.existsSync (fs : Fs) (p : List String) : Bool :=
  (fs.files.lookup p).isSome

/-- Embeds the dynamic `import(path)`: `none` when the path does not
resolve (the import throws). -/
def Fs.importModule (fs : Fs) (p : List String) : Option PluginModule :=
  fs.files.lookup p

/-- Embeds `PluginLoader.loadPlugin(metadata)` acting on the metadata
entry at index `i`.  A missing index, an already-loaded entry, a failed
import, a throwing factory, or a rejecting `init` all leave the load
aborted with the error caught inside `loadPlugin`; note that handlers the
factory already registered imperatively stay in the registry in the
factory-throw and `init`-reject cases, because the catch block performs no
rollback. -/
def loadPluginAt (fs : Fs) (st : PluginLoader) (i : Nat) : PluginLoader :=
  match st.pluginMetadata[i]? with
  | none => st
  | some meta =>
    if meta.loaded then st
    else
      match fs.importModule meta.filePath with
      | none => st
      | some m =>
        if m.importFails then st
        else
          let reg1 := registerCommands st.commands m.factoryRegisters
          if m.factoryFails || m.initFails then
            { st with commands := reg1 }
          else
            let plugin : PluginModule :=
              { m with
                category := meta.category,
                commands := m.commands.map (fun h => { h with category := meta.category }) }
            let reg2 := registerCommands reg1 plugin.commands
            { st with
              commands := reg2,
              pluginMetadata :=
                st.pluginMetadata.set i { meta with loaded := true, plugin := some plugin },
              loadedPlugins := st.loadedPlugins ++ [plugin] }

/-- Embeds `PluginLoader.loadAllPlugins()`: load every metadata entry
(`loadPluginAt` is a no-op on entries already loaded, mirroring the
`!meta.loaded` filter). -/
def loadAllPlugins (fs : Fs) (st : PluginLoader) : PluginLoader :=
  (List.range st.pluginMetadata.length).foldl (fun s i => loadPluginAt fs s i) st

/-- Index of the metadata entry whose (normalized) path equals `p`. -/
def findMetaIdx (st : PluginLoader) (p : List String) : Option Nat :=
  st.pluginMetadata.findIdx? (fun meta => meta.filePath == p)

/-- Embeds `Map.delete` of a normalized key. -/
def deleteKey (reg : Registry) (k : String) : Registry :=
  reg.filter (fun e => !(e.1 == k))

/-- Deleting every token of one handler, lower-cased, as in the inner loop
of `unloadPlugin`; the deletion is by key only, with no check that the
registry entry points at this handler. -/
def deleteHandlerTokens (reg : Registry) (h : CommandHandler) : Registry :=
  h.commands.foldl (fun r t => deleteKey r (toLowerCase t)) reg

/-- Deleting the tokens of a list of handlers, as in the outer loop of
`unloadPlugin` over `plugin.commands`. -/
def deleteAllTokens (reg : Registry) (hs : List CommandHandler) : Registry :=
  hs.foldl deleteHandlerTokens reg

/-- Removes the first occurrence of a plugin instance from the
loaded-plugins list (the `findIndex`/`splice` pair in `unloadPlugin`);
object identity is modelled by structural equality. -/
def removeFirst (ps : List PluginModule) (q : PluginModule) : List PluginModule :=
  match ps with
  | [] => []
  | p :: rest => if p == q then rest else p :: removeFirst rest q

/-- Embeds `PluginLoader.unloadPlugin(filePath)`: returns the new state
and the boolean result. -/
def unloadPlugin (st : PluginLoader) (filePath : List String) : PluginLoader × Bool :=
  match findMetaIdx st filePath with
  | none => (st, false)
  | some i =>
    match st.pluginMetadata[i]? with
    | none => (st, false)
    | some meta =>
      if !meta.loaded then (st, false)
      else
        match meta.plugin with
        | none => (st, false)
        | some plugin =>
          ({ st with
             commands := deleteAllTokens st.commands plugin.commands,
             loadedPlugins := removeFirst st.loadedPlugins plugin,
             pluginMetadata :=
               st.pluginMetadata.set i { meta with loaded := false, plugin := none } },
           true)

/-- Embeds `path.dirname` on segment lists. -/
def dirname (p : List String) : List String := p.dropLast

/-- First segment of `path.relative(base, p)` or `none` when the relative
path is empty (the `category !== \x22\x22 ? category : undefined` test); a
path outside `base` yields a `..` segment. -/
def relFirstSeg (base p : List String) : Option String :=
  if base.isPrefixOf p then (p.drop base.length).head? else some ".."

/-- Embeds `PluginLoader.reloadPlugin(filePath)`.  `Except.error` models
an exception escaping to the caller: in the known-path branch
`require.resolve(filePath)` throws when the file no longer resolves, and
`reloadPlugin` has no try/catch around it. -/
def reloadPlugin (fs : Fs) (st : PluginLoader) (filePath : List String) :
    Except Unit (PluginLoader × Bool) :=
  match findMetaIdx st filePath with
  | none =>
    if !fs.existsSync filePath then .ok (st, false)
    else
      let category := relFirstSeg st.pluginsDir (dirname filePath)
      let meta : PluginMetadata := { filePath := filePath, category := category }
      let st1 := { st with pluginMetadata := st.pluginMetadata ++ [meta] }
      .ok (loadPluginAt fs st1 (st1.pluginMetadata.length - 1), true)
  | some i =>
    let st1 := (unloadPlugin st filePath).1
    if !fs.existsSync filePath then .error ()
    else .ok (loadPluginAt fs st1 i, true)

/-- A directory tree under the plugins root, for discovery. -/
inductive FsTree where
  | file (nm : String)
  | dir (nm : String) (children : List FsTree)

/-- The module-file test of `discoverDirectory`: name ends in `.ts` or
`.js`. -/
def isModuleFile (nm : String) : Bool :=
  strEndsWith nm ".ts" || strEndsWith nm ".js"

/-- Embeds the loop body of `PluginLoader.discoverDirectory(dirPath,
category)` over a directory listing: a subdirectory is recursed into with
`category := item.name` (its own name), a module file yields a metadata
entry carrying the current `category`. -/
def discoverItems : Option String → List String → List FsTree → List PluginMetadata
  | _, _, [] => []
  | cat, curPath, FsTree.dir nm cs :: rest =>
    discoverItems (some nm) (curPath ++ [nm]) cs ++ discoverItems cat curPath rest
  | cat, curPath, FsTree.file nm :: rest =>
    (if isModuleFile nm then [{ filePath := curPath ++ [nm], category := cat }] else [])
      ++ discoverItems cat curPath rest

/-- Embeds `PluginLoader.discoverPlugins()` on an existing plugins root:
walk the root listing with no initial category. -/
def discoverPlugins (root : List String) (rootItems : List FsTree) : List PluginMetadata :=
  discoverItems none root rootItems

/-- Outcome of invoking a command handler: the promise resolves or
rejects. -/
inductive CmdOutcome
  | ok
  | err
  deriving DecidableEq, Repr

/-- Outcome of invoking a generic `handleMessage` hook: resolves `true`,
resolves `false`, or rejects. -/
inductive GenOutcome
  | handledTrue
  | handledFalse
  | genErr
  deriving DecidableEq, Repr

/-- The part of a serialized message that dispatch consumes
(`message.message.command` and `.args`); `command` is `none` when absent
and may be the empty string, which JS truthiness also treats as no
command. -/
structure Msg where
  command : Option String := none
  args : List String := []
  deriving DecidableEq, Repr

/-- JS truthiness of the optional command string: `if (command)`. -/
def truthyCommand : Option String → Option String
  | none => none
  | some c => if c = "" then none else some c

/-- Observable trace of one dispatch: which command handlers ran, which
generic hooks ran (by plugin id, in order), how many generic failure
notices were sent to the sender, and how many handler errors were
logged. -/
structure DispatchTrace where
  cmdInvoked : List Nat
  genInvoked : List Nat
  failNotices : Nat
  errorsLogged : Nat
  deriving DecidableEq, Repr

/-- Embeds the fallback loop of `PluginLoader.handleMessage` over
`this.loadedPlugins`: skip plugins without a hook, stop at the first hook
resolving `true`, log and continue past a rejecting hook.  Returns the
invoked plugin ids in order and the number of errors logged. -/
def tryMessageHooks (genv : Nat → GenOutcome) : List PluginModule → List Nat × Nat
  | [] => ([], 0)
  | p :: rest =>
    if p.hasHandleMessage then
      match genv p.pid with
      | .handledTrue => ([p.pid], 0)
      | .handledFalse =>
        let r := tryMessageHooks genv rest
        (p.pid :: r.1, r.2)
      | .genErr =>
        let r := tryMessageHooks genv rest
        (p.pid :: r.1, r.2 + 1)
    else tryMessageHooks genv rest

/-- Embeds `PluginLoader.handleMessage(sock, message)`: a truthy command
that resolves in the registry (case-insensitively) runs exactly that
handler — on rejection the error is logged and one generic failure notice
is sent, and dispatch returns without consulting the hooks; otherwise the
generic hooks are tried in load order. -/
def handleMessage (cenv : Nat → CmdOutcome) (genv : Nat → GenOutcome)
    (st : PluginLoader) (msg : Msg) : DispatchTrace :=
  match truthyCommand msg.command with
  | some c =>
    match regLookup st.commands (toLowerCase c) with
    | some hid =>
      match cenv hid with
      | .ok => ⟨[hid], [], 0, 0⟩
      | .err => ⟨[hid], [], 1, 1⟩
    | none =>
      let r := tryMessageHooks genv st.loadedPlugins
      ⟨[], r.1, 0, r.2⟩
  | none =>
    let r := tryMessageHooks genv st.loadedPlugins
    ⟨[], r.1, 0, r.2⟩

/-- Supervisor state relevant to worker-exit handling in `monitor.ts`:
the module-level `isRestarting` and `isShuttingDown` flags and whether a
child process handle is held. -/
structure MonitorState where
  isRestarting : Bool := false
  isShuttingDown : Bool := false
  hasCurrentProcess : Bool := true
  deriving DecidableEq, Repr

/-- The fixed restart backoff of `monitor.ts` (milliseconds). -/
def RESTART_BACKOFF : Nat := 5000

/-- The fixed debounce window of `monitor.ts` (milliseconds). -/
def DEBOUNCE_TIME : Nat := 500

/-- Embeds the `proc.on(\x22exit\x22, ...)` handler of `startAppProcess`:
returns the updated state and the delay of the restart timer it
schedules, if any.  During shutdown it returns immediately; otherwise it
clears the process handle, and schedules a restart only for a non-zero
(or null) exit code when neither restarting nor shutting down. -/
def onWorkerExit (st : MonitorState) (code : Option Int) : MonitorState × Option Nat :=
  if st.isShuttingDown then (st, none)
  else
    let st1 := { st with hasCurrentProcess := false }
    if code ≠ some 0 ∧ st.isRestarting = false ∧ st.isShuttingDown = false then
      (st1, some RESTART_BACKOFF)
    else (st1, none)

/-- Substring test embedding JavaScript `String.prototype.includes`. -/
def strContainsSub (hay needle : String) : Bool :=
  decide (needle.toList <:+: hay.toList)

/-- Watcher filenames are relative paths below the watched `src`
directory, as segment lists.  The early-return filter of the watch
callback: skip paths containing `node_modules` and paths not ending in
`.ts` or `.js`.  (Neither needle contains a separator, so testing the
joined path string for a substring is equivalent to testing segments.) -/
def skipWatchEvent (filename : List String) : Bool :=
  filename.any (fun seg => strContainsSub seg "node_modules") ||
    !(match filename.getLast? with
      | some nm => strEndsWith nm ".ts" || strEndsWith nm ".js"
      | none => false)

/-- Debounce state: the filename captured by the pending timer callback,
if a timer is pending. -/
structure WatchState where
  pending : Option (List String) := none
  deriving DecidableEq, Repr

/-- Embeds one invocation of the watch callback in `setupFileWatchers`: a
missing filename or shutdown returns unchanged; a filtered file returns
unchanged; otherwise the existing timer (if any) is cleared and a new
timer capturing this event's filename is set — trailing edge only. -/
def onWatchEvent (isShuttingDown : Bool) (st : WatchState)
    (filename : Option (List String)) : WatchState :=
  match filename with
  | none => st
  | some fn =>
    if isShuttingDown then st
    else if skipWatchEvent fn then st
    else { pending := some fn }

/-- A burst of watch events all landing inside one debounce window:
each event is processed before the pending timer can fire. -/
def processBurst (isShuttingDown : Bool)
    (events : List (Option (List String))) : WatchState :=
  events.foldl (onWatchEvent isShuttingDown) { pending := none }

/-- Inter-process messages the supervisor sends to the worker. -/
inductive IpcMsg
  | reloadPluginMsg (path : List String)
  | fileChangedMsg (path : List String)
  deriving DecidableEq, Repr

/-- The action the debounce timer callback performs when it fires. -/
inductive TimerAction
  | sendIpc (m : IpcMsg)
  | restartApp
  | dropped
  deriving DecidableEq, Repr

/-- Embeds the body of the debounce timer callback: a path under
`plugins/` sends a `reloadPlugin` instruction with the full path (or is
dropped when the channel is not connected); the main file's basename,
`index.ts`, or a path containing `config` restarts the whole worker; any
other path sends an informational `fileChanged` notice. -/
def classifyChange (connected : Bool) (srcDir : List String)
    (mainFileBase : String) (fn : List String) : TimerAction :=
  if fn.head? = some "plugins" ∧ 2 ≤ fn.length then
    if connected then .sendIpc (.reloadPluginMsg (srcDir ++ fn)) else .dropped
  else if fn = [mainFileBase] ∨ fn = ["index.ts"] ∨
      fn.any (fun seg => strContainsSub seg "config") then
    .restartApp
  else if connected then .sendIpc (.fileChangedMsg (srcDir ++ fn)) else .dropped

/-- The actions one debounce window produces once quiet: none if no timer
is pending, otherwise exactly the one action of the pending callback. -/
def windowActions (connected : Bool) (srcDir : List String)
    (mainFileBase : String) (st : WatchState) : List TimerAction :=
  match st.pending with
  | none => []
  | some fn => [classifyChange connected srcDir mainFileBase fn]

/-- All lower-cased tokens a module's load can put into the registry:
those of the handlers its factory registers imperatively and those of its
declared handlers. -/
def moduleTokens (m : PluginModule) : List String :=
  (m.factoryRegisters ++ m.commands).flatMap (fun h => h.commands.map toLowerCase)

/-- Spec-side trial order for the generic-hook fallback: the ids of every
plugin with a hook, in load order, up to and including the first whose
hook resolves `true`. -/
def takeThroughTrue (genv : Nat → GenOutcome) : List Nat → List Nat
  | [] => []
  | i :: is =>
    if genv i = .handledTrue then [i] else i :: takeThroughTrue genv is

/-- Generic-hook environment for the C3 scenario: plugin 1's hook
resolves `false`, plugin 2's rejects, every other resolves `true`. -/
def genvC3 (i : Nat) : GenOutcome :=
  if i = 1 then .handledFalse else if i = 2 then .genErr else .handledTrue

/-- Loader state for the C3 scenario: four loaded plugins, the third of
which lacks a generic hook. -/
def stC3 : PluginLoader :=
  { pluginsDir := ["plugins"],
    loadedPlugins :=
      [{ pid := 1, hasHandleMessage := true }, { pid := 2, hasHandleMessage := true },
       { pid := 5, hasHandleMessage := false }, { pid := 3, hasHandleMessage := true },
       { pid := 4, hasHandleMessage := true }] }

/-- Module for the C5/C10 scenarios: a plugin whose `init` hook rejects;
its factory also registers one handler imperatively. -/
def mBadInit : PluginModule :=
  { pid := 7, initFails := true,
    factoryRegisters := [{ hid := 8, commands := ["fcmd"] }],
    commands := [{ hid := 7, commands := ["bad"] }] }

/-- File system for the C5 scenario: only the failing plugin's file. -/
def fsC5 : Fs := { files := [(["plugins", "util", "bad.ts"], mBadInit)] }

/-- Fresh loader for the C5 scenario: no metadata yet. -/
def stC5 : PluginLoader := { pluginsDir := ["plugins"] }

/-- First plugin of the C6 scenario: declares the token `ping`. -/
def mPing1 : PluginModule :=
  { pid := 1, commands := [{ hid := 1, commands := ["ping"] }] }

/-- Second plugin of the C6 scenario: declares `ping` (colliding) and
`pong`. -/
def mPing2 : PluginModule :=
  { pid := 2, commands := [{ hid := 2, commands := ["ping", "pong"] }] }

/-- File system of the C6 scenario. -/
def fsC6 : Fs :=
  { files := [(["plugins", "util", "a.ts"], mPing1), (["plugins", "util", "b.ts"], mPing2)] }

/-- Loader of the C6 scenario after discovery of both plugin files. -/
def stC6 : PluginLoader :=
  { pluginsDir := ["plugins"],
    pluginMetadata :=
      [{ filePath := ["plugins", "util", "a.ts"] }, { filePath := ["plugins", "util", "b.ts"] }] }

/-- Healthy plugin of the C7 scenario: loads fine, declares `go`. -/
def mGood : PluginModule :=
  { pid := 1, commands := [{ hid := 1, commands := ["go"] }] }

/-- Failing plugin of the C7 scenario: purely declarative (`bad`), its
`init` hook rejects. -/
def mBad2 : PluginModule :=
  { pid := 7, initFails := true, commands := [{ hid := 7, commands := ["bad"] }] }

/-- File system of the C7 scenario. -/
def fsC7 : Fs :=
  { files := [(["plugins", "util", "good.ts"], mGood), (["plugins", "util", "bad.ts"], mBad2)] }

/-- Loader of the C7 scenario after discovery of both plugin files. -/
def stC7 : PluginLoader :=
  { pluginsDir := ["plugins"],
    pluginMetadata :=
      [{ filePath := ["plugins", "util", "good.ts"] }, { filePath := ["plugins", "util", "bad.ts"] }] }

/-! ## Registry lemmas -/

theorem regLookup_append (l₁ l₂ : Registry) (k : String) :
    regLookup (l₁ ++ l₂) k = ((regLookup l₁ k).or (regLookup l₂ k)) := by
  induction l₁ with
  | nil => simp [regLookup]
  | cons p rest ih =>
    simp only [regLookup, List.cons_append, List.lookup] at *
    by_cases h : k == p.1
    · simp [h]
    · simp [h] at *
      exact ih

theorem regLookup_single (a : String) (b : Nat) (k : String) :
    regLookup [(a, b)] k = if k == a then some b else none := by
  cases hka : k == a <;> simp [regLookup, List.lookup, hka]

theorem regLookup_registerToken (reg : Registry) (h : CommandHandler) (t k : String) :
    regLookup (registerToken reg h t) k =
      if (regLookup reg k).isSome then regLookup reg k
      else if toLowerCase t == k then some h.hid else none := by
  unfold registerToken
  by_cases hp : (regLookup reg (toLowerCase t)).isSome
  · simp only [hp, if_true]
    cases hr : regLookup reg k with
    | some v => simp [hr]
    | none =>
      simp only [hr, Option.isSome_none, Bool.false_eq_true, if_false]
      by_cases he : toLowerCase t == k
      · exfalso
        have ht : toLowerCase t = k := by simpa using he
        rw [ht, hr] at hp
        simp at hp
      · simp [he]
  · rw [if_neg hp, regLookup_append]
    cases hr : regLookup reg k with
    | some v => simp [hr, Option.or]
    | none =>
      simp only [hr, Option.none_or, Option.isSome_none, Bool.false_eq_true, if_false]
      rw [regLookup_single]
      by_cases he : toLowerCase t == k
      · have ht : toLowerCase t = k := by simpa using he
        subst ht
        simp
      · have hne : toLowerCase t ≠ k := by simpa using he
        have hkne : (k == toLowerCase t) = false := by
          simp only [beq_eq_false_iff_ne, ne_eq]
          exact fun hc => hne hc.symm
        simp [hkne, he]

theorem regLookup_registerHandler (reg : Registry) (h : CommandHandler) (k : String) :
    regLookup (registerHandler reg h) k =
      if (regLookup reg k).isSome then regLookup reg k
      else if h.commands.any (fun t => toLowerCase t == k) then some h.hid else none := by
  unfold registerHandler
  induction h.commands generalizing reg with
  | nil =>
    cases hr : regLookup reg k <;> simp [hr]
  | cons t ts ih =>
    simp only [List.foldl_cons, List.any_cons]
    rw [ih]
    rw [regLookup_registerToken]
    by_cases hk : (regLookup reg k).isSome
    · simp [hk]
    · simp only [hk, if_false]
      by_cases he : toLowerCase t == k
      · simp [he]
      · simp [he, hk]

theorem regLookup_registerCommands (reg : Registry) (hs : List CommandHandler) (k : String) :
    regLookup (registerCommands reg hs) k =
      if (regLookup reg k).isSome then regLookup reg k
      else firstRegistrant hs k := by
  unfold registerCommands
  induction hs generalizing reg with
  | nil =>
    cases hr : regLookup reg k <;> simp [hr, firstRegistrant]
  | cons h rest ih =>
    simp only [List.foldl_cons, firstRegistrant]
    rw [ih, regLookup_registerHandler]
    by_cases hk : (regLookup reg k).isSome
    · simp [hk]
    · simp only [hk, if_false]
      by_cases hd : h.commands.any (fun t => toLowerCase t == k)
      · simp [hd]
      · simp [hd, hk]

theorem firstRegistrant_isSome_of_mem (hs : List CommandHandler)
    (h : CommandHandler) (hh : h ∈ hs) (tok : String) (htok : tok ∈ h.commands) :
    (firstRegistrant hs (toLowerCase tok)).isSome = true := by
  induction hs with
  | nil => cases hh
  | cons h0 rest ih =>
    by_cases hd : h0.commands.any (fun t => toLowerCase t == toLowerCase tok) = true
    · rw [firstRegistrant, if_pos hd]
      rfl
    · rcases List.mem_cons.mp hh with he | hmem
      · exfalso
        apply hd
        rw [List.any_eq_true]
        refine ⟨tok, ?_, by simp⟩
        rw [he] at htok
        exact htok
      · rw [firstRegistrant, if_neg hd]
        exact ih hmem

/-! ## Dispatch lemmas -/

theorem tryMessageHooks_eq (genv : Nat → GenOutcome) (ps : List PluginModule) :
    tryMessageHooks genv ps =
      (takeThroughTrue genv ((ps.filter (fun p => p.hasHandleMessage)).map (fun p => p.pid)),
       ((takeThroughTrue genv ((ps.filter (fun p => p.hasHandleMessage)).map (fun p => p.pid))).filter
          (fun i => genv i == .genErr)).length) := by
  induction ps with
  | nil => rfl
  | cons p rest ih =>
    by_cases hp : p.hasHandleMessage
    · cases hg : genv p.pid
      all_goals
        simp [tryMessageHooks, takeThroughTrue, hp, hg, ih, List.filter_cons]
    · simp [tryMessageHooks, hp, ih]

/-! ## Claim theorems -/

/-- C1: the Command Registry maps each normalized (lower-cased) token to
the handler of its first registrant.  Registering a handler whose token
is already present leaves the existing mapping unchanged and skips only
that token, the same handler's other non-colliding tokens still register,
and across any registration sequence a token resolves to its first
registrant; registration is a total function, raising no error. -/
theorem claim_C1 (reg : Registry) (h : CommandHandler) (hs : List CommandHandler)
    (k t : String) :
    ((regLookup reg k).isSome → regLookup (registerHandler reg h) k = regLookup reg k) ∧
    (t ∈ h.commands → regLookup reg (toLowerCase t) = none →
      regLookup (registerHandler reg h) (toLowerCase t) = some h.hid) ∧
    regLookup (registerCommands [] hs) k = firstRegistrant hs k := by
  refine ⟨?_, ?_, ?_⟩
  · intro hk
    rw [regLookup_registerHandler, if_pos hk]
  · intro hmem hnone
    rw [regLookup_registerHandler, hnone]
    simp only [Option.isSome_none, Bool.false_eq_true, if_false]
    have hany : h.commands.any (fun u => toLowerCase u == toLowerCase t) = true := by
      rw [List.any_eq_true]
      exact ⟨t, hmem, by simp⟩
    rw [if_pos hany]
  · rw [regLookup_registerCommands]
    simp [regLookup]

/-- Witness for C1: a colliding token `PING` is skipped while the same
handler's token `Pong` still registers. -/
theorem claim_C1_witness :
    regLookup (registerHandler [("ping", 1)] { hid := 2, commands := ["PING", "Pong"] })
      (toLowerCase "Pong") = some 2 ∧
    regLookup (registerHandler [("ping", 1)] { hid := 2, commands := ["PING", "Pong"] })
      "ping" = some 1 := by
  constructor
  · exact (claim_C1 [("ping", 1)] { hid := 2, commands := ["PING", "Pong"] } [] "x" "Pong").2.1
      (by decide) (by decide)
  · exact (claim_C1 [("ping", 1)] { hid := 2, commands := ["PING", "Pong"] } [] "ping" "y").1
      (by decide)

/-- C2: a message whose truthy command resolves case-insensitively in the
registry invokes exactly that command handler and never a generic
`handleMessage` hook; when the handler rejects, the error is logged and
the sender receives one generic failure notice, still with no
fall-through to generic hooks. -/
theorem claim_C2 (cenv : Nat → CmdOutcome) (genv : Nat → GenOutcome)
    (st : PluginLoader) (msg : Msg) (c : String) (hid : Nat)
    (hc : truthyCommand msg.command = some c)
    (hl : regLookup st.commands (toLowerCase c) = some hid) :
    (handleMessage cenv genv st msg).cmdInvoked = [hid] ∧
    (handleMessage cenv genv st msg).genInvoked = [] ∧
    (cenv hid = .err →
      (handleMessage cenv genv st msg).failNotices = 1 ∧
      (handleMessage cenv genv st msg).errorsLogged = 1) ∧
    (cenv hid = .ok →
      (handleMessage cenv genv st msg).failNotices = 0 ∧
      (handleMessage cenv genv st msg).errorsLogged = 0) := by
  unfold handleMessage
  cases ho : cenv hid <;> simp [hc, hl, ho]

/-- Witness for C2: command `PING` (upper case) resolves to handler 5,
which rejects; the hook of the loaded plugin 9 is not invoked and one
failure notice is sent. -/
theorem claim_C2_witness :
    (handleMessage (fun _ => CmdOutcome.err) (fun _ => GenOutcome.handledTrue)
        { pluginsDir := ["plugins"], commands := [("ping", 5)],
          loadedPlugins := [{ pid := 9, hasHandleMessage := true }] }
        { command := some "PING" }).cmdInvoked = [5] ∧
    (handleMessage (fun _ => CmdOutcome.err) (fun _ => GenOutcome.handledTrue)
        { pluginsDir := ["plugins"], commands := [("ping", 5)],
          loadedPlugins := [{ pid := 9, hasHandleMessage := true }] }
        { command := some "PING" }).genInvoked = [] ∧
    (handleMessage (fun _ => CmdOutcome.err) (fun _ => GenOutcome.handledTrue)
        { pluginsDir := ["plugins"], commands := [("ping", 5)],
          loadedPlugins := [{ pid := 9, hasHandleMessage := true }] }
        { command := some "PING" }).failNotices = 1 := by
  have h := claim_C2 (fun _ => CmdOutcome.err) (fun _ => GenOutcome.handledTrue)
    { pluginsDir := ["plugins"], commands := [("ping", 5)],
      loadedPlugins := [{ pid := 9, hasHandleMessage := true }] }
    { command := some "PING" } "PING" 5 (by decide) (by decide)
  exact ⟨h.1, h.2.1, (h.2.2.1 rfl).1⟩

/-- C3: with no matching command (command falsy or token unregistered),
dispatch invokes no command handler and tries the generic hooks of loaded
plugins in load order, stopping at the first that resolves `true`; a
rejecting hook is logged and iteration continues, so the errors logged
are exactly the rejecting hooks tried. -/
theorem claim_C3 (cenv : Nat → CmdOutcome) (genv : Nat → GenOutcome)
    (st : PluginLoader) (msg : Msg)
    (hnc : truthyCommand msg.command = none ∨
      ∃ c, truthyCommand msg.command = some c ∧
        regLookup st.commands (toLowerCase c) = none) :
    (handleMessage cenv genv st msg).cmdInvoked = [] ∧
    (handleMessage cenv genv st msg).genInvoked =
      takeThroughTrue genv
        ((st.loadedPlugins.filter (fun p => p.hasHandleMessage)).map (fun p => p.pid)) ∧
    (handleMessage cenv genv st msg).errorsLogged =
      ((handleMessage cenv genv st msg).genInvoked.filter
        (fun i => genv i == .genErr)).length := by
  rcases hnc with h1 | ⟨c, hc, hl⟩
  · unfold handleMessage
    simp [h1, tryMessageHooks_eq]
  · unfold handleMessage
    simp [hc, hl, tryMessageHooks_eq]

/-- Witness for C3: no command present; hooks of plugins 1 (false),
2 (rejects), 3 (true) are tried in order, 4 is never reached, and one
error is logged. -/
theorem claim_C3_witness :
    (handleMessage (fun _ => CmdOutcome.ok) genvC3 stC3 { command := none }).genInvoked =
      [1, 2, 3] ∧
    (handleMessage (fun _ => CmdOutcome.ok) genvC3 stC3 { command := none }).errorsLogged = 1 := by
  have h := claim_C3 (fun _ => CmdOutcome.ok) genvC3 stC3 { command := none }
    (Or.inl (by decide))
  constructor
  · rw [h.2.1]
    decide
  · rw [h.2.2, h.2.1]
    decide

/-! ## Discovery, unload and reload lemmas -/

theorem discoverItems_category (cat : Option String) (curPath : List String)
    (items : List FsTree) :
    ∀ m ∈ discoverItems cat curPath items,
      curPath <+: dirname m.filePath ∧
      m.category = if dirname m.filePath = curPath then cat
        else (dirname m.filePath).getLast? := by
  induction cat, curPath, items using discoverItems.induct with
  | case1 cat curPath =>
    intro m hm
    simp [discoverItems] at hm
  | case2 cat curPath nm cs rest ih1 ih2 =>
    intro m hm
    simp only [discoverItems, List.mem_append] at hm
    rcases hm with hL | hR
    · obtain ⟨hpre, hcat⟩ := ih1 m hL
      have hpre2 : curPath <+: dirname m.filePath :=
        (List.prefix_append curPath [nm]).trans hpre
      refine ⟨hpre2, ?_⟩
      have hne : dirname m.filePath ≠ curPath := by
        intro he
        have hlen := hpre.length_le
        rw [he] at hlen
        simp only [List.length_append, List.length_cons, List.length_nil] at hlen
        omega
      rw [if_neg hne]
      by_cases h2 : dirname m.filePath = curPath ++ [nm]
      · rw [hcat, if_pos h2, h2, List.getLast?_concat]
      · rw [hcat, if_neg h2]
    · exact ih2 m hR
  | case3 cat curPath nm rest ih =>
    intro m hm
    simp only [discoverItems, List.mem_append] at hm
    rcases hm with hL | hR
    · by_cases hmod : isModuleFile nm
      · rw [if_pos hmod] at hL
        have hme : m = { filePath := curPath ++ [nm], category := cat } :=
          List.mem_singleton.mp hL
        subst hme
        simp [dirname, List.dropLast_concat]
      · rw [if_neg hmod] at hL
        simp at hL
    · exact ih m hR

theorem deleteTokenFold_eq_filter (reg : Registry) (ts : List String) :
    ts.foldl (fun r t => deleteKey r (toLowerCase t)) reg =
      reg.filter (fun e => !(ts.any (fun t => toLowerCase t == e.1))) := by
  induction ts generalizing reg with
  | nil => simp
  | cons t ts ih =>
    simp only [List.foldl_cons]
    rw [ih, deleteKey, List.filter_filter]
    apply List.filter_congr
    intro e he
    by_cases hq : toLowerCase t = e.1
    · simp [hq]
    · have h2 : ¬(e.1 = toLowerCase t) := fun hc => hq hc.symm
      have h3 : (e.1 == toLowerCase t) = false := by simp [h2]
      have h4 : (toLowerCase t == e.1) = false := by simp [hq]
      simp [h3, h4, List.any_cons]

theorem deleteHandlerTokens_eq_filter (reg : Registry) (h : CommandHandler) :
    deleteHandlerTokens reg h =
      reg.filter (fun e => !(h.commands.any (fun t => toLowerCase t == e.1))) :=
  deleteTokenFold_eq_filter reg h.commands

theorem deleteAllTokens_eq_filter (reg : Registry) (hs : List CommandHandler) :
    deleteAllTokens reg hs =
      reg.filter (fun e =>
        !(hs.any (fun h => h.commands.any (fun t => toLowerCase t == e.1)))) := by
  unfold deleteAllTokens
  induction hs generalizing reg with
  | nil => simp
  | cons h rest ih =>
    simp only [List.foldl_cons]
    rw [ih, deleteHandlerTokens_eq_filter, List.filter_filter]
    apply List.filter_congr
    intro e he
    by_cases hh : h.commands.any (fun t => toLowerCase t == e.1) = true <;>
      simp [hh, List.any_cons]

/-- C4 counterexample: a module file two levels below the plugins root
(`root/a/b/p.ts`) is discovered with category `b` — the name of its own
containing directory — not the top-level first-segment name `a` that the
claim requires. -/
theorem claim_C4_counterexample :
    (discoverPlugins ["root"] [FsTree.dir "a" [FsTree.dir "b" [FsTree.file "p.ts"]]]).map
      (fun m => m.category) = [some "b"] ∧ (some "b" : Option String) ≠ some "a" := by
  constructor
  · simp [discoverPlugins, discoverItems, isModuleFile, strEndsWith]
  · decide

/-- C4 amended: each discovered module's descriptor category is the name
of the module file's immediate parent directory (the deepest directory on
its path), and modules directly in the plugins root get no category —
deeper modules do not inherit the top-level directory name. -/
theorem claim_C4_amended (root : List String) (items : List FsTree)
    (m : PluginMetadata) (hm : m ∈ discoverPlugins root items) :
    m.category = if dirname m.filePath = root then none
      else (dirname m.filePath).getLast? :=
  (discoverItems_category none root items m hm).2

/-- Witness for C4 at the two-level tree of the counterexample. -/
theorem claim_C4_witness :
    ({ filePath := ["root", "a", "b", "p.ts"], category := some "b" } : PluginMetadata).category =
      if dirname (["root", "a", "b", "p.ts"] : List String) = ["root"] then none
      else (dirname ["root", "a", "b", "p.ts"]).getLast? := by
  have hm : ({ filePath := ["root", "a", "b", "p.ts"], category := some "b" } : PluginMetadata) ∈
      discoverPlugins ["root"] [FsTree.dir "a" [FsTree.dir "b" [FsTree.file "p.ts"]]] := by
    simp [discoverPlugins, discoverItems, isModuleFile, strEndsWith]
  exact claim_C4_amended ["root"] [FsTree.dir "a" [FsTree.dir "b" [FsTree.file "p.ts"]]] _ hm

/-- C5 counterexample: reloading a plugin file whose module's `init` hook
rejects returns `true` even though the load failed — nothing was loaded,
the metadata entry stays unloaded — refuting the claim that a failed
reload reports `false`. -/
theorem claim_C5_counterexample :
    (reloadPlugin fsC5 stC5 ["plugins", "util", "bad.ts"]).toOption.map
      (fun r => r.2) = some true ∧
    (reloadPlugin fsC5 stC5 ["plugins", "util", "bad.ts"]).toOption.map
      (fun r => r.1.pluginMetadata.map (fun meta => meta.loaded)) = some [false] ∧
    (reloadPlugin fsC5 stC5 ["plugins", "util", "bad.ts"]).toOption.map
      (fun r => r.1.loadedPlugins.length) = some 0 := by
  refine ⟨by decide, by decide, by decide⟩

/-- C5 amended: `reloadPlugin` returns `false` exactly when the path is
unknown to the metadata store and the file does not exist; whenever the
file exists it returns `true` — even when the underlying load step
failed, because `loadPlugin` catches its own errors; and it throws to its
caller exactly when the path is known but the file no longer resolves
(the `require.resolve` cache-invalidation step). -/
theorem claim_C5_amended (fs : Fs) (st : PluginLoader) (p : List String) :
    (reloadPlugin fs st p = .ok (st, false) ↔
      findMetaIdx st p = none ∧ fs.existsSync p = false) ∧
    (reloadPlugin fs st p = .error () ↔
      (findMetaIdx st p).isSome ∧ fs.existsSync p = false) ∧
    (fs.existsSync p = true → ∃ st2, reloadPlugin fs st p = .ok (st2, true)) := by
  unfold reloadPlugin
  cases hf : findMetaIdx st p <;> cases he : fs.existsSync p <;> simp [he]

/-- Witness for C5 amended: the failing-init file exists, so the reload
reports `true`. -/
theorem claim_C5_witness :
    fsC5.existsSync ["plugins", "util", "bad.ts"] = true ∧
    ∃ st2, reloadPlugin fsC5 stC5 ["plugins", "util", "bad.ts"] = .ok (st2, true) :=
  ⟨by decide, (claim_C5_amended fsC5 stC5 ["plugins", "util", "bad.ts"]).2.2 (by decide)⟩

/-- C6 counterexample: plugin 1 registers `ping` first; plugin 2 also
declares `ping`, whose registration was skipped as a collision, so the
registry entry maps to handler 1.  Unloading plugin 2 nevertheless
deletes the `ping` entry — an entry pointing at a different plugin's
handler — refuting the claim that such entries remain registered. -/
theorem claim_C6_counterexample :
    regLookup (loadAllPlugins fsC6 stC6).commands "ping" = some 1 ∧
    (unloadPlugin (loadAllPlugins fsC6 stC6) ["plugins", "util", "b.ts"]).2 = true ∧
    regLookup
      ((unloadPlugin (loadAllPlugins fsC6 stC6) ["plugins", "util", "b.ts"]).1).commands
      "ping" = none := by
  refine ⟨by decide, by decide, by decide⟩

/-- C6 amended: unload removes from the registry exactly the entries
whose key is among the lower-cased tokens declared by the unloaded
plugin's handlers — regardless of which handler each entry maps to — and
leaves every entry under any other key unchanged. -/
theorem claim_C6_amended (st : PluginLoader) (p : List String) (i : Nat)
    (meta : PluginMetadata) (plugin : PluginModule)
    (hf : findMetaIdx st p = some i)
    (hm : st.pluginMetadata[i]? = some meta)
    (hl : meta.loaded = true)
    (hp : meta.plugin = some plugin) :
    (unloadPlugin st p).2 = true ∧
    (unloadPlugin st p).1.commands =
      st.commands.filter
        (fun e => !(plugin.commands.any (fun h => h.commands.any
          (fun t => toLowerCase t == e.1)))) := by
  unfold unloadPlugin
  simp [hf, hm, hl, hp, deleteAllTokens_eq_filter]

/-- Witness for C6 amended at the loaded two-plugin scenario. -/
theorem claim_C6_witness :
    (unloadPlugin (loadAllPlugins fsC6 stC6) ["plugins", "util", "b.ts"]).1.commands =
      (loadAllPlugins fsC6 stC6).commands.filter
        (fun e => !(mPing2.commands.any (fun h => h.commands.any
          (fun t => toLowerCase t == e.1)))) := by
  have h := claim_C6_amended (loadAllPlugins fsC6 stC6) ["plugins", "util", "b.ts"] 1
    { filePath := ["plugins", "util", "b.ts"], loaded := true, plugin := some mPing2 } mPing2
    (by decide) (by decide) (by decide) (by decide)
  exact h.2

/-! ## Supervisor theorems -/

/-- C8: for a worker exit observed outside shutdown, a zero exit code
schedules no restart; a non-zero (or null) exit code with the supervisor
neither shutting down nor mid-restart schedules exactly one restart after
the fixed 5000 ms backoff. -/
theorem claim_C8 (st : MonitorState) (code : Option Int) :
    (st.isShuttingDown = false → code = some 0 →
      onWorkerExit st code = ({ st with hasCurrentProcess := false }, none)) ∧
    (code ≠ some 0 → st.isShuttingDown = false → st.isRestarting = false →
      onWorkerExit st code = ({ st with hasCurrentProcess := false }, some RESTART_BACKOFF)) := by
  unfold onWorkerExit
  constructor
  · intro hsd hc
    simp [hsd, hc]
  · intro hc hsd hr
    simp [hsd, hc, hr]

/-- Witness for C8: exit code 1 while idle schedules one restart after
5000 ms; exit code 0 schedules none. -/
theorem claim_C8_witness :
    onWorkerExit { isRestarting := false, isShuttingDown := false, hasCurrentProcess := true }
        (some 1) =
      ({ isRestarting := false, isShuttingDown := false, hasCurrentProcess := false },
        some RESTART_BACKOFF) ∧
    onWorkerExit { isRestarting := false, isShuttingDown := false, hasCurrentProcess := true }
        (some 0) =
      ({ isRestarting := false, isShuttingDown := false, hasCurrentProcess := false }, none) := by
  constructor
  · exact (claim_C8 { isRestarting := false, isShuttingDown := false, hasCurrentProcess := true }
      (some 1)).2 (by decide) rfl rfl
  · exact (claim_C8 { isRestarting := false, isShuttingDown := false, hasCurrentProcess := true }
      (some 0)).1 rfl rfl

/-- C9: any burst of watch events inside one debounce window leaves at
most one pending timer, holding the filename of the most recent
unfiltered event; when that file lies under `plugins/` and the channel is
connected, the window fires exactly one action — a `reloadPlugin`
instruction carrying the full path of that last event. -/
theorem claim_C9 (es : List (Option (List String))) (lastFn : List String)
    (srcDir : List String) (mainFileBase : String)
    (hskip : skipWatchEvent lastFn = false)
    (hhead : lastFn.head? = some "plugins")
    (hlen : 2 ≤ lastFn.length) :
    (processBurst false (es ++ [some lastFn])).pending = some lastFn ∧
    windowActions true srcDir mainFileBase (processBurst false (es ++ [some lastFn])) =
      [TimerAction.sendIpc (IpcMsg.reloadPluginMsg (srcDir ++ lastFn))] := by
  have hp : (processBurst false (es ++ [some lastFn])).pending = some lastFn := by
    unfold processBurst
    rw [List.foldl_append]
    simp [onWatchEvent, hskip]
  refine ⟨hp, ?_⟩
  unfold windowActions classifyChange
  rw [hp]
  simp [hhead, hlen]

/-- Witness for C9: three events for files under `plugins/` inside one
window yield exactly one `reloadPlugin` instruction, with the last
event's path. -/
theorem claim_C9_witness :
    windowActions true ["src"] "index.js"
      (processBurst false
        [some ["plugins", "a", "x.ts"], some ["plugins", "a", "y.ts"],
         some ["plugins", "a", "z.ts"]]) =
      [TimerAction.sendIpc (IpcMsg.reloadPluginMsg ["src", "plugins", "a", "z.ts"])] :=
  (claim_C9 [some ["plugins", "a", "x.ts"], some ["plugins", "a", "y.ts"]]
    ["plugins", "a", "z.ts"] ["src"] "index.js" (by decide) (by decide) (by decide)).2

/-- C10: when a module's factory registers handlers imperatively through
the plugin context and its `init` hook then rejects, the load aborts with
those registrations already performed and kept: the resulting state is
the old state with exactly the factory registrations added, the metadata
store is untouched (the descriptor stays unloaded), no plugin joins the
loaded list, and every imperatively declared token is present in the
registry — a failed load is not atomic. -/
theorem claim_C10 (fs : Fs) (st : PluginLoader) (i : Nat)
    (meta : PluginMetadata) (m : PluginModule)
    (hmet : st.pluginMetadata[i]? = some meta)
    (hunl : meta.loaded = false)
    (hmod : fs.importModule meta.filePath = some m)
    (himp : m.importFails = false)
    (hfac : m.factoryFails = false)
    (hini : m.initFails = true) :
    loadPluginAt fs st i = { st with commands := registerCommands st.commands m.factoryRegisters } ∧
    (loadPluginAt fs st i).pluginMetadata = st.pluginMetadata ∧
    (loadPluginAt fs st i).loadedPlugins = st.loadedPlugins ∧
    ∀ h ∈ m.factoryRegisters, ∀ tok ∈ h.commands,
      (regLookup (loadPluginAt fs st i).commands (toLowerCase tok)).isSome = true := by
  have hload : loadPluginAt fs st i =
      { st with commands := registerCommands st.commands m.factoryRegisters } := by
    unfold loadPluginAt
    simp [hmet, hunl, hmod, himp, hfac, hini]
  refine ⟨hload, by rw [hload], by rw [hload], ?_⟩
  intro h hh tok htok
  rw [hload]
  show (regLookup (registerCommands st.commands m.factoryRegisters) (toLowerCase tok)).isSome = true
  rw [regLookup_registerCommands]
  by_cases hk : (regLookup st.commands (toLowerCase tok)).isSome
  · simp [hk]
  · simp only [hk, if_false]
    exact firstRegistrant_isSome_of_mem m.factoryRegisters h hh tok htok

/-- Witness for C10: the failing-init module of the C5 scenario
imperatively registers `fcmd`, which survives the aborted load. -/
theorem claim_C10_witness :
    (regLookup
      (loadPluginAt fsC5
        { pluginsDir := ["plugins"],
          pluginMetadata := [{ filePath := ["plugins", "util", "bad.ts"] }] } 0).commands
      (toLowerCase "fcmd")).isSome = true := by
  have h := claim_C10 fsC5
    { pluginsDir := ["plugins"],
      pluginMetadata := [{ filePath := ["plugins", "util", "bad.ts"] }] } 0
    { filePath := ["plugins", "util", "bad.ts"] } mBadInit
    (by decide) rfl (by decide) rfl rfl rfl
  exact h.2.2.2 { hid := 8, commands := ["fcmd"] } (by decide) "fcmd" (by decide)

/-! ## Load-all lemmas for C7 -/

theorem firstRegistrant_eq_none (hs : List CommandHandler) (k : String)
    (hno : ∀ h0 ∈ hs, ∀ tok ∈ h0.commands, toLowerCase tok ≠ k) :
    firstRegistrant hs k = none := by
  induction hs with
  | nil => rfl
  | cons h0 rest ih =>
    have hfalse : (h0.commands.any (fun u => toLowerCase u == k)) = false := by
      rw [List.any_eq_false]
      intro u hu
      simp only [beq_iff_eq]
      exact hno h0 (List.mem_cons_self h0 rest) u hu
    simp only [firstRegistrant, hfalse, Bool.false_eq_true, if_false]
    exact ih (fun h1 hh1 => hno h1 (List.mem_cons_of_mem _ hh1))

theorem firstRegistrant_factory_eq_none (m2 : PluginModule) (t : String)
    (hnt : t ∉ moduleTokens m2) :
    firstRegistrant m2.factoryRegisters t = none := by
  apply firstRegistrant_eq_none
  intro h0 hh0 tok htok heq
  apply hnt
  rw [← heq]
  unfold moduleTokens
  rw [List.mem_flatMap]
  refine ⟨h0, List.mem_append_left _ hh0, ?_⟩
  rw [List.mem_map]
  exact ⟨tok, htok, rfl⟩

theorem firstRegistrant_declared_eq_none (m2 : PluginModule) (t : String)
    (cat : Option String) (hnt : t ∉ moduleTokens m2) :
    firstRegistrant (m2.commands.map (fun h => { h with category := cat })) t = none := by
  apply firstRegistrant_eq_none
  intro h0 hh0 tok htok heq
  rw [List.mem_map] at hh0
  obtain ⟨h1, hh1, hmap⟩ := hh0
  have hcmds : h1.commands = h0.commands := by rw [← hmap]
  apply hnt
  rw [← heq]
  unfold moduleTokens
  rw [List.mem_flatMap]
  refine ⟨h1, List.mem_append_right _ hh1, ?_⟩
  rw [List.mem_map]
  refine ⟨tok, ?_, rfl⟩
  rw [hcmds]
  exact htok

theorem loadPluginAt_inert (fs : Fs) (s : PluginLoader) (i : Nat)
    (meta : PluginMetadata) (m : PluginModule)
    (hmet : s.pluginMetadata[i]? = some meta)
    (hunl : meta.loaded = false)
    (hmod : fs.importModule meta.filePath = some m)
    (himp : m.importFails = false) (hfac : m.factoryFails = false)
    (hini : m.initFails = true) (hfr : m.factoryRegisters = []) :
    loadPluginAt fs s i = s := by
  simp [loadPluginAt, hmet, hunl, hmod, himp, hfac, hini, hfr, registerCommands]

theorem loadPluginAt_invariant (fs : Fs) (s : PluginLoader) (j : Nat)
    (t : String) (pid0 : Nat)
    (hreg : regLookup s.commands t = none)
    (hpids : ∀ p ∈ s.loadedPlugins, p.pid ≠ pid0)
    (hnoj : ∀ meta2 m2, s.pluginMetadata[j]? = some meta2 →
      fs.importModule meta2.filePath = some m2 → t ∉ moduleTokens m2 ∧ m2.pid ≠ pid0) :
    regLookup (loadPluginAt fs s j).commands t = none ∧
    (∀ p ∈ (loadPluginAt fs s j).loadedPlugins, p.pid ≠ pid0) ∧
    (∀ (k : Nat), k ≠ j → (loadPluginAt fs s j).pluginMetadata[k]? = s.pluginMetadata[k]?) ∧
    (∀ (k : Nat), ((loadPluginAt fs s j).pluginMetadata[k]?).map (fun (md : PluginMetadata) => md.filePath) =
      (s.pluginMetadata[k]?).map (fun (md : PluginMetadata) => md.filePath)) := by
  cases hm : s.pluginMetadata[j]? with
  | none =>
    simp only [loadPluginAt, hm]
    exact ⟨hreg, hpids, fun k _ => trivial, fun k => trivial⟩
  | some meta2 =>
    cases hld : meta2.loaded with
    | true =>
      simp only [loadPluginAt, hm, hld, if_true]
      exact ⟨hreg, hpids, fun k _ => trivial, fun k => trivial⟩
    | false =>
      cases hmm : fs.importModule meta2.filePath with
      | none =>
        simp only [loadPluginAt, hm, hld, hmm, Bool.false_eq_true, if_false]
        exact ⟨hreg, hpids, fun k _ => trivial, fun k => trivial⟩
      | some m2 =>
        obtain ⟨hnt, hnp⟩ := hnoj meta2 m2 hm hmm
        cases hif : m2.importFails with
        | true =>
          simp only [loadPluginAt, hm, hld, hmm, hif, Bool.false_eq_true, if_false, if_true]
          exact ⟨hreg, hpids, fun k _ => trivial, fun k => trivial⟩
        | false =>
          cases hffi : (m2.factoryFails || m2.initFails) with
          | true =>
            simp only [loadPluginAt, hm, hld, hmm, hif, hffi, Bool.false_eq_true, if_false,
              if_true]
            refine ⟨?_, hpids, fun k _ => trivial, fun k => trivial⟩
            rw [regLookup_registerCommands, hreg]
            simp only [Option.isSome_none, Bool.false_eq_true, if_false]
            exact firstRegistrant_factory_eq_none m2 t hnt
          | false =>
            have hjlt : j < s.pluginMetadata.length := by
              by_contra hge
              rw [List.getElem?_eq_none (Nat.le_of_not_lt hge)] at hm
              cases hm
            simp only [loadPluginAt, hm, hld, hmm, hif, hffi, Bool.false_eq_true, if_false]
            have hlook : regLookup
                (registerCommands
                  (registerCommands s.commands m2.factoryRegisters)
                  (m2.commands.map (fun h => { h with category := meta2.category }))) t = none := by
              rw [regLookup_registerCommands, regLookup_registerCommands, hreg]
              simp only [Option.isSome_none, Bool.false_eq_true, if_false]
              rw [firstRegistrant_factory_eq_none m2 t hnt]
              simp only [Option.isSome_none, Bool.false_eq_true, if_false]
              exact firstRegistrant_declared_eq_none m2 t meta2.category hnt
            refine ⟨hlook, ?_, ?_, ?_⟩
            · intro p hp
              rw [List.mem_append] at hp
              rcases hp with hp | hp
              · exact hpids p hp
              · rw [List.mem_singleton] at hp
                subst hp
                exact hnp
            · intro k hk
              exact List.getElem?_set_ne (fun he => hk he.symm)
            · intro k
              by_cases hkj : k = j
              · subst hkj
                rw [List.getElem?_set_self hjlt, hm]
                rfl
              · rw [List.getElem?_set_ne (fun he => hkj he.symm)]

theorem loadFold_inv (fs : Fs) (st : PluginLoader) (i : Nat)
    (meta : PluginMetadata) (m : PluginModule) (t : String)
    (hunl : meta.loaded = false)
    (hmod : fs.importModule meta.filePath = some m)
    (himp : m.importFails = false) (hfac : m.factoryFails = false)
    (hini : m.initFails = true) (hfr : m.factoryRegisters = [])
    (hoth : ∀ j < st.pluginMetadata.length, j ≠ i →
      ((st.pluginMetadata[j]?.bind (fun meta2 => fs.importModule meta2.filePath)).all
        (fun m2 => !(decide (t ∈ moduleTokens m2)) && m2.pid != m.pid)) = true) :
    ∀ (L : List Nat), (∀ j ∈ L, j < st.pluginMetadata.length) →
    ∀ (s : PluginLoader),
      regLookup s.commands t = none →
      (∀ p ∈ s.loadedPlugins, p.pid ≠ m.pid) →
      s.pluginMetadata[i]? = some meta →
      (∀ (k : Nat), (s.pluginMetadata[k]?).map (fun (md : PluginMetadata) => md.filePath) =
        (st.pluginMetadata[k]?).map (fun (md : PluginMetadata) => md.filePath)) →
      regLookup (L.foldl (fun s2 j => loadPluginAt fs s2 j) s).commands t = none ∧
      (∀ p ∈ (L.foldl (fun s2 j => loadPluginAt fs s2 j) s).loadedPlugins, p.pid ≠ m.pid) ∧
      (L.foldl (fun s2 j => loadPluginAt fs s2 j) s).pluginMetadata[i]? = some meta ∧
      (∀ (k : Nat), ((L.foldl (fun s2 j => loadPluginAt fs s2 j) s).pluginMetadata[k]?).map
        (fun (md : PluginMetadata) => md.filePath) = (st.pluginMetadata[k]?).map (fun (md : PluginMetadata) => md.filePath)) ∧
      L.foldl (fun s2 j => loadPluginAt fs s2 j) s =
        L.foldl (fun s2 j => if j = i then s2 else loadPluginAt fs s2 j) s := by
  intro L
  induction L with
  | nil =>
    intro _ s h1 h2 h3 h4
    exact ⟨h1, h2, h3, h4, rfl⟩
  | cons j L ih =>
    intro hL s h1 h2 h3 h4
    have hjlt : j < st.pluginMetadata.length := hL j (List.mem_cons_self j L)
    have hLrest : ∀ j2 ∈ L, j2 < st.pluginMetadata.length :=
      fun j2 hj2 => hL j2 (List.mem_cons_of_mem _ hj2)
    by_cases hji : j = i
    · subst hji
      have hstep : loadPluginAt fs s j = s :=
        loadPluginAt_inert fs s j meta m h3 hunl hmod himp hfac hini hfr
      simp only [List.foldl_cons, hstep, if_pos rfl]
      exact ih hLrest s h1 h2 h3 h4
    · have hnoj : ∀ meta2 m2, s.pluginMetadata[j]? = some meta2 →
          fs.importModule meta2.filePath = some m2 →
          t ∉ moduleTokens m2 ∧ m2.pid ≠ m.pid := by
        intro meta2 m2 hme hm2
        have hfp := h4 j
        rw [hme] at hfp
        cases hst : st.pluginMetadata[j]? with
        | none =>
          rw [hst] at hfp
          cases hfp
        | some meta3 =>
          rw [hst] at hfp
          have hfp2 : meta2.filePath = meta3.filePath := by
            simpa using hfp
          have hb := hoth j hjlt hji
          rw [hst] at hb
          rw [show (some meta3).bind (fun meta4 => fs.importModule meta4.filePath) =
              fs.importModule meta3.filePath from rfl] at hb
          rw [← hfp2, hm2] at hb
          rw [show (some m2).all (fun m3 => !(decide (t ∈ moduleTokens m3)) && m3.pid != m.pid)
              = (!(decide (t ∈ moduleTokens m2)) && m2.pid != m.pid) from rfl] at hb
          rw [Bool.and_eq_true] at hb
          constructor
          · have := hb.1
            simp only [Bool.not_eq_true'] at this
            exact of_decide_eq_false this
          · exact bne_iff_ne.mp hb.2
      obtain ⟨g1, g2, g3, g4⟩ := loadPluginAt_invariant fs s j t m.pid h1 h2 hnoj
      have h3s : (loadPluginAt fs s j).pluginMetadata[i]? = some meta := by
        rw [g3 i (fun he => hji he.symm)]
        exact h3
      have h4s : ∀ (k : Nat), ((loadPluginAt fs s j).pluginMetadata[k]?).map (fun (md : PluginMetadata) => md.filePath) =
          (st.pluginMetadata[k]?).map (fun (md : PluginMetadata) => md.filePath) := by
        intro k
        rw [g4 k]
        exact h4 k
      simp only [List.foldl_cons, if_neg hji]
      exact ih hLrest (loadPluginAt fs s j) g1 g2 h3s h4s

/-- C7: when a discovered plugin's `init` hook rejects (its module purely
declarative), its load aborts after `loadAll`: its descriptor stays
unloaded, its instance joins no loaded-plugins list, each of its declared
tokens not claimed elsewhere is absent from the registry, and every other
plugin's load proceeds exactly as if the failing plugin were skipped. -/
theorem claim_C7 (fs : Fs) (st : PluginLoader) (i : Nat)
    (meta : PluginMetadata) (m : PluginModule) (t : String)
    (hmet : st.pluginMetadata[i]? = some meta)
    (hunl : meta.loaded = false)
    (hmod : fs.importModule meta.filePath = some m)
    (himp : m.importFails = false)
    (hfac : m.factoryFails = false)
    (hini : m.initFails = true)
    (hfr : m.factoryRegisters = [])
    (_ht : t ∈ moduleTokens m)
    (hreg0 : regLookup st.commands t = none)
    (hpid0 : ∀ p ∈ st.loadedPlugins, p.pid ≠ m.pid)
    (hoth : ∀ j < st.pluginMetadata.length, j ≠ i →
      ((st.pluginMetadata[j]?.bind (fun meta2 => fs.importModule meta2.filePath)).all
        (fun m2 => !(decide (t ∈ moduleTokens m2)) && m2.pid != m.pid)) = true) :
    (loadAllPlugins fs st).pluginMetadata[i]? = some meta ∧
    (∀ p ∈ (loadAllPlugins fs st).loadedPlugins, p.pid ≠ m.pid) ∧
    regLookup (loadAllPlugins fs st).commands t = none ∧
    loadAllPlugins fs st =
      (List.range st.pluginMetadata.length).foldl
        (fun s j => if j = i then s else loadPluginAt fs s j) st := by
  have h := loadFold_inv fs st i meta m t hunl hmod himp hfac hini hfr hoth
    (List.range st.pluginMetadata.length)
    (fun j hj => List.mem_range.mp hj)
    st hreg0 hpid0 hmet (fun k => rfl)
  exact ⟨h.2.2.1, h.2.1, h.1, h.2.2.2.2⟩

/-- Witness for C7: of two discovered plugins, `bad.ts` has a rejecting
`init`; after `loadAll` its token `bad` is unregistered and its
descriptor unloaded, while `good.ts` loaded. -/
theorem claim_C7_witness :
    regLookup (loadAllPlugins fsC7 stC7).commands "bad" = none ∧
    (loadAllPlugins fsC7 stC7).pluginMetadata[1]? =
      some { filePath := ["plugins", "util", "bad.ts"] } := by
  have h := claim_C7 fsC7 stC7 1 { filePath := ["plugins", "util", "bad.ts"] } mBad2 "bad"
    (by decide) rfl (by decide) rfl rfl rfl rfl (by decide) (by decide) (by decide) (by decide)
  exact ⟨h.2.2.1, h.1⟩

end FKZ
